import Mathlib

/-!
Verification development for the repository net_opt.

The repository solves a P-median facility-location problem
(execute.py): given plants and customers it builds a binary program
(open variables x, assignment variables y), solves it with an external
MIP engine, and post-processes the solution into a lane table and KPIs.
utils.py provides the haversine distance used to build the
plant-customer distance matrix.

This file shallowly embeds those parts:
* the optimization model and the result aggregation over `ℚ` (the source
  works with Python floats; ideal field arithmetic is modelled exactly, and
  `ℚ` keeps concrete instances decidable);
* the geodesic layer (`calculate_distance_haversine`, `get_distance`, the
  cost column) over `ℝ`, since it is trigonometric.

The external solver is modelled as an oracle: a `SolveResult` carrying the
raw Gurobi status code and one value per binary variable (Gurobi returns
floats compared against the 0.5 threshold in `generate_outputs`; for
binary variables that threshold test is exactly a Boolean, which is how the
variable values are embedded).
-/

namespace NetOpt

/-- Parameters of the run, set in the main region of execute.py
(`max_plants`, `cost_per_mile`, `min_cost`, `open_map_in_cell`,
`auto_open_map`, `file_name`). This record is the whole configuration
surface of the program. -/
structure Params where
  max_plants : ℕ
  cost_per_mile : ℚ
  min_cost : ℚ
  open_map_in_cell : Bool
  auto_open_map : Bool
  file_name : String

/-- Embedded value of a binary decision variable: Gurobi binary variables,
read through the 0.5 threshold used in `generate_outputs`. -/
def bval (b : Bool) : ℚ := if b then 1 else 0

/-- The data consumed by `run_network_optimization` after `prep_data`:
the plant id list `plnt` and customer id list `cust` (built with
`unique()`, hence `Nodup` in the source; stated as hypotheses where
needed), the Must Use / Can Use plant flags, customer Demand, and
the distance table `dist` built by `get_distance` and consumed through
`dist.loc` lookups. -/
structure Instance (P C : Type) where
  plants : List P
  custs : List C
  mustUse : P → Bool
  canUse : P → Bool
  demand : C → ℚ
  dist : P → C → ℚ

variable {P C : Type}

/-- The `must_use_plants` list of `run_network_optimization`:
plant ids whose Must Use flag is set. -/
def must_use_plants (I : Instance P C) : List P :=
  I.plants.filter fun p => I.mustUse p

/-- The `unavailable_plants` list of `run_network_optimization`:
plant ids whose Can Use flag is false. -/
def unavailable_plants (I : Instance P C) : List P :=
  I.plants.filter fun p => !I.canUse p

/-- The five constraint groups posted on the model in
`run_network_optimization`, evaluated on a candidate solution:
1. `cust_coverage`: for every customer j, the serve variables over all
   plants sum to exactly 1;
2. `max_num_plants`: the open variables sum to at most `max_plants`;
3. `rel_x_y`: serve is at most open, for every pair in `ij_set`;
4. `must_use`: open equals 1 for the must-use plants;
5. `cant_use`: open equals 0 for the unavailable plants. -/
def Feasible (pr : Params) (I : Instance P C) (x : P → Bool) (y : P → C → Bool) : Prop :=
  (∀ c ∈ I.custs, (I.plants.map fun p => bval (y p c)).sum = 1) ∧
  (I.plants.map fun p => bval (x p)).sum ≤ (pr.max_plants : ℚ) ∧
  (∀ p ∈ I.plants, ∀ c ∈ I.custs, bval (y p c) ≤ bval (x p)) ∧
  (∀ p ∈ must_use_plants I, bval (x p) = 1) ∧
  (∀ p ∈ unavailable_plants I, bval (x p) = 0)

instance (pr : Params) (I : Instance P C) (x : P → Bool) (y : P → C → Bool) :
    Decidable (Feasible pr I x y) := by
  unfold Feasible
  infer_instance

/-- The `total_weighted_dist` expression of `run_network_optimization`:
the sum over `ij_set` of distance times demand times the serve variable
(the sum over the pair set is written as the nested sum over the two id
lists). -/
def total_weighted_dist (I : Instance P C) (y : P → C → Bool) : ℚ :=
  (I.plants.map fun p =>
    (I.custs.map fun c => I.dist p c * I.demand c * bval (y p c)).sum).sum

/-- The cost transform applied to the Distance column in
`run_network_optimization`: the maximum of `cost_per_mile` times the
distance and `min_cost`. Generic in the ordered field so the same
definition serves the real-valued distance matrix and the rational-valued
model layer. -/
def service_cost {K : Type} [LinearOrderedField K] (rate floor d : K) : K :=
  max (rate * d) floor

/-- The commented-out Case 2 objective of `run_network_optimization`:
the sum over `ij_set` of the Cost column times the serve variable, with
the Cost column equal to `service_cost` of the distance. -/
def total_cost (pr : Params) (I : Instance P C) (y : P → C → Bool) : ℚ :=
  (I.plants.map fun p =>
    (I.custs.map fun c =>
      service_cost pr.cost_per_mile pr.min_cost (I.dist p c) * bval (y p c)).sum).sum

/-- The objective actually set on the model: `objective = total_weighted_dist`
(Case 1 in the source; Case 2 is commented out and no configuration
value switches to it). -/
def objective (pr : Params) (I : Instance P C) (y : P → C → Bool) : ℚ :=
  total_weighted_dist I y

/-- The key set of the y variables added by `addVars`:
all (plant id, customer id) pairs, plants-major. -/
def ij_pairs (I : Instance P C) : List (P × C) :=
  I.plants.flatMap fun p => I.custs.map fun c => (p, c)

/-- The `assigned_list` of `generate_outputs`: the variable keys whose
solved value passes the 0.5 threshold. -/
def assigned_list (I : Instance P C) (y : P → C → Bool) : List (P × C) :=
  (ij_pairs I).filter fun pc => y pc.1 pc.2

/-- One row of the post-processed assignment frame `adf` of
`generate_outputs`: an assigned (plant, customer) pair joined (inner, on
total keys) with the demand of the customer and the distance of the pair.
The final `lanes` frame carries the same rows plus display columns (names,
coordinates, the lane label) and a deduplication that is a no-op on
rows with distinct keys. -/
structure LaneRow (P C : Type) where
  plant : P
  customer : C
  demand : ℚ
  distance : ℚ
deriving DecidableEq

/-- The `adf` frame of `generate_outputs`: the assigned pairs enriched with
demand and distance by the two inner merges. -/
def adf (I : Instance P C) (y : P → C → Bool) : List (LaneRow P C) :=
  (assigned_list I y).map fun pc => ⟨pc.1, pc.2, I.demand pc.2, I.dist pc.1 pc.2⟩

/-- Total demand of `generate_outputs`: the sum of the Demand column of
`adf`. -/
def total_dmd (I : Instance P C) (y : P → C → Bool) : ℚ :=
  ((adf I y).map fun r => r.demand).sum

/-- Weighted average distance of `generate_outputs`: the value of
`total_weighted_dist` divided by `total_dmd`. -/
def weighted_avg_dist (I : Instance P C) (y : P → C → Bool) : ℚ :=
  total_weighted_dist I y / total_dmd I y

/-- The per-threshold demand share of `generate_outputs`: the demand sum
over the rows within the threshold, divided by `total_dmd` (rows are
within threshold T when their Distance is at most T; the source uses
thresholds 400, 800, 1200). -/
def pct_dmd_within (I : Instance P C) (y : P → C → Bool) (t : ℚ) : ℚ :=
  (((adf I y).filter fun r => r.distance ≤ t).map fun r => r.demand).sum / total_dmd I y

/-- The distinct plant ids appearing in the lane table (the Plant ID
column of the rows built from `assigned_list`). -/
def lane_plants (I : Instance P C) (y : P → C → Bool) : List P :=
  (assigned_list I y).map Prod.fst

/-- The open plants read back in `generate_outputs`: the x keys whose
solved value passes the 0.5 threshold. -/
def open_plants (I : Instance P C) (x : P → Bool) : List P :=
  I.plants.filter fun p => x p

/-- Gurobi status code OPTIMAL. -/
def OPTIMAL : ℕ := 2

/-- Gurobi status code INFEASIBLE. -/
def INFEASIBLE : ℕ := 3

/-- Gurobi status code INF_OR_UNBD. -/
def INF_OR_UNBD : ℕ := 4

/-- Gurobi status code UNBOUNDED. -/
def UNBOUNDED : ℕ := 5

/-- What the optimize call hands back: the raw status code and, read
through the 0.5 threshold, the solved values of the binary variables. The
solver is an external engine; the run only consumes this result. -/
structure SolveResult (P C : Type) where
  status : ℕ
  x : P → Bool
  y : P → C → Bool

/-- How a run of `run_network_optimization` ends after the solve call:
either a process exit (with a code, after printing a message) or the
lane table returned by `generate_outputs`. The source has no other
terminal path — in particular no DataError or named solver-status
exception exists anywhere in it. -/
inductive RunOutcome (P C : Type) where
  | exited (code : ℕ) (message : String)
  | reported (lanes : List (LaneRow P C))
deriving DecidableEq

/-- The message printed for the grouped non-optimal statuses. -/
def infeasible_or_unbounded_msg : String :=
  "The model is either infeasible or unbounded!"

/-- The status dispatch after the optimize call in
`run_network_optimization`: statuses INF_OR_UNBD, INFEASIBLE,
UNBOUNDED print one shared message and exit with code 1; OPTIMAL
proceeds to `generate_outputs`; any other status prints a message naming
the code and exits with code 1. The model is always built and submitted
first — the outcome is a function of the answer of the solver. -/
def run_network_optimization (pr : Params) (I : Instance P C)
    (result : SolveResult P C) : RunOutcome P C :=
  if result.status = INF_OR_UNBD ∨ result.status = INFEASIBLE ∨ result.status = UNBOUNDED then
    RunOutcome.exited 1 infeasible_or_unbounded_msg
  else if result.status = OPTIMAL then
    RunOutcome.reported (adf I result.y)
  else
    RunOutcome.exited 1 ("Status is " ++ toString result.status ++ ". Investigate!")

/-! Concrete data used by witnesses and counterexamples. Ids are naturals,
like the integer ids of the sample workbooks. -/

/-- Concrete data reused by several witnesses: two plants (plant 0
must-use, both usable), two customers, a diagonal-cheap distance table. -/
def wit_I : Instance ℕ ℕ where
  plants := [0, 1]
  custs := [0, 1]
  mustUse := fun p => p = 0
  canUse := fun _ => true
  demand := fun c => if c = 0 then 10 else 20
  dist := fun p c => if p = c then 1 else 5

/-- Parameters matching the main region of execute.py with
`max_plants` lowered to 2 for the two-plant witness data. -/
def wit_pr : Params := ⟨2, 2, 450, false, true, "Sample Data.xlsx"⟩

/-- Witness solution: both plants open. -/
def wit_x : ℕ → Bool := fun _ => true

/-- Witness solution: each customer served by the same-index plant. -/
def wit_y : ℕ → ℕ → Bool := fun p c => p = c

/-- Counterexample data for C2: plant 0 is must-use but expensive for the
single customer; plant 1 is free and cheap. -/
def cex2_I : Instance ℕ ℕ where
  plants := [0, 1]
  custs := [0]
  mustUse := fun p => p = 0
  canUse := fun _ => true
  demand := fun _ => 1
  dist := fun p _ => if p = 0 then 100 else 1

/-- Parameters for the C2 counterexample: both plants may be open. -/
def cex2_pr : Params := ⟨2, 2, 450, false, true, "Sample Data.xlsx"⟩

/-- Optimal solution of the C2 counterexample: both plants open (plant 0 is
forced open), the customer served by the cheap plant 1. -/
def cex2_x : ℕ → Bool := fun _ => true

/-- Serve map of the C2 counterexample solution. -/
def cex2_y : ℕ → ℕ → Bool := fun p _ => p = 1

/-- C5 counterexample data: one plant, two customers of demands 1 and 2 at
distance 1. -/
def inst5a : Instance ℕ ℕ where
  plants := [0]
  custs := [0, 1]
  mustUse := fun _ => false
  canUse := fun _ => true
  demand := fun c => if c = 0 then 1 else 2
  dist := fun _ _ => 1

/-- C5 counterexample data: one plant, one customer of demand 1 at
distance 1. -/
def inst5b : Instance ℕ ℕ where
  plants := [0]
  custs := [0]
  mustUse := fun _ => false
  canUse := fun _ => true
  demand := fun _ => 1
  dist := fun _ _ => 1

/-- C6 counterexample data: the single plant is flagged both must-use and
cannot-use. -/
def cex6_I : Instance ℕ ℕ where
  plants := [0]
  custs := [0]
  mustUse := fun _ => true
  canUse := fun _ => false
  demand := fun _ => 1
  dist := fun _ _ => 1

/-- Parameters for the C6 counterexample. -/
def cex6_pr : Params := ⟨3, 2, 450, false, true, "Sample Data.xlsx"⟩

/-! The geodesic layer: `calculate_distance_haversine` from utils.py and
the distance-matrix construction `get_distance` from execute.py.
Python float trigonometry is modelled over `ℝ`. -/

/-- Lowercasing as applied by the source to the units argument (the
Python string method lower, on the ASCII unit spellings): lowercase every
character. -/
def strLower (s : String) : String := String.mk (s.data.map Char.toLower)

/-- The two-argument arctangent of the Python math module. The source
applies it to the non-negative values produced by the two square roots, so
only the right half-plane and positive vertical-axis branches are ever
reached. -/
noncomputable def atan2 (y x : ℝ) : ℝ :=
  if 0 < x then Real.arctan (y / x)
  else if x = 0 then
    if 0 < y then Real.pi / 2
    else if y < 0 then -(Real.pi / 2)
    else 0
  else if 0 ≤ y then Real.arctan (y / x) + Real.pi
  else Real.arctan (y / x) - Real.pi

/-- Degrees to radians, as the radians function of the Python math
module. -/
noncomputable def radians (x : ℝ) : ℝ := x * Real.pi / 180

/-- The Earth radius selected by the units handling in
`calculate_distance_haversine`: the lowercased units string is matched
against the miles spellings, then the kilometer spellings; any other
value only prints a warning and keeps the miles default. -/
noncomputable def earthRadius (units : String) : ℝ :=
  if strLower units = "miles" ∨ strLower units = "mile" ∨ strLower units = "m" then
    3958.756
  else if strLower units = "kilometers" ∨ strLower units = "kilometer"
      ∨ strLower units = "km" then
    6371.00
  else 3958.756

/-- The local value a of `calculate_distance_haversine`: the squared sine
of half the latitude difference plus the product of the two latitude
cosines and the squared sine of half the longitude difference, after the
degree-to-radian conversion of the four coordinates. -/
noncomputable def haversine_a (lat1 lon1 lat2 lon2 : ℝ) : ℝ :=
  Real.sin ((radians lat2 - radians lat1) / 2) ^ 2 +
    Real.cos (radians lat1) * Real.cos (radians lat2) *
      Real.sin ((radians lon2 - radians lon1) / 2) ^ 2

/-- The haversine distance of utils.py: radius from the units string,
central angle c as twice the two-argument arctangent of the square roots
of a and of one minus a, result radius times c times the road factor. The
function has no raising path: every input produces a value. -/
noncomputable def calculate_distance_haversine (lat1 lon1 lat2 lon2 : ℝ)
    (road_factor : ℝ := 1) (units : String := "miles") : ℝ :=
  earthRadius units *
    (2 * atan2 (Real.sqrt (haversine_a lat1 lon1 lat2 lon2))
      (Real.sqrt (1 - haversine_a lat1 lon1 lat2 lon2))) * road_factor

/-- A plant row of the Plants table as consumed by `get_distance`. -/
structure PlantRec (P : Type) where
  id : P
  lat : ℝ
  lon : ℝ
  mustUse : Bool
  canUse : Bool

/-- A customer row of the Customers table as consumed by
`get_distance`. -/
structure CustRec (C : Type) where
  id : C
  lat : ℝ
  lon : ℝ
  demand : ℝ

/-- A row of the distance matrix with its derived cost column. -/
structure DistRow (P C : Type) where
  plant : P
  customer : C
  distance : ℝ
  cost : ℝ

/-- The `get_distance` function of execute.py plus the Cost column added
right after in `run_network_optimization`: the cross merge pairs every
plant row with every customer row (plants-major), Distance applies the
haversine with default road factor 1 and miles units, and Cost is
`service_cost` of the distance. -/
noncomputable def get_distance_with_cost (pr : Params)
    (plants : List (PlantRec P)) (custs : List (CustRec C)) : List (DistRow P C) :=
  plants.flatMap fun p => custs.map fun c =>
    { plant := p.id, customer := c.id,
      distance := calculate_distance_haversine p.lat p.lon c.lat c.lon 1 "miles",
      cost := service_cost (pr.cost_per_mile : ℝ) (pr.min_cost : ℝ)
        (calculate_distance_haversine p.lat p.lon c.lat c.lon 1 "miles") }

/-- Plant row used by the C3 witness. -/
def wit_plant : PlantRec ℕ := ⟨7, 0, 0, false, true⟩

/-- Customer row used by the C3 witness. -/
def wit_cust : CustRec ℕ := ⟨9, 0, 180, 5⟩

/-! Helper lemmas about sums over the variable grid, followed by the claim
theorems and their witnesses. -/

theorem sum_map_bval {α : Type} (l : List α) (p : α → Bool) :
    (l.map fun a => bval (p a)).sum = ((l.filter p).length : ℚ) := by
  induction l with
  | nil => simp
  | cons a t ih =>
    simp only [bval] at ih
    by_cases h : p a
    · simp [h, bval, List.filter_cons, ih]
      ring
    · simp [h, bval, List.filter_cons, ih]

theorem sum_map_add {β : Type} (l : List β) (f g : β → ℚ) :
    (l.map fun b => f b + g b).sum = (l.map f).sum + (l.map g).sum := by
  induction l with
  | nil => simp
  | cons b t ih => simp [ih]; ring

theorem list_sum_comm {α β : Type} (l1 : List α) (l2 : List β) (f : α → β → ℚ) :
    (l1.map fun a => (l2.map fun b => f a b).sum).sum
      = (l2.map fun b => (l1.map fun a => f a b).sum).sum := by
  induction l1 with
  | nil => simp
  | cons a t ih => simp [ih, sum_map_add]

theorem sum_map_mul_right_const {α : Type} (l : List α) (f : α → ℚ) (k : ℚ) :
    (l.map fun a => f a * k).sum = (l.map f).sum * k := by
  induction l with
  | nil => simp
  | cons a t ih => simp [ih]; ring

theorem mem_ij_pairs (I : Instance P C) (pc : P × C) :
    pc ∈ ij_pairs I ↔ pc.1 ∈ I.plants ∧ pc.2 ∈ I.custs := by
  cases pc with
  | mk p c =>
    simp [ij_pairs, List.mem_flatMap, List.mem_map]

theorem mem_assigned_list (I : Instance P C) (y : P → C → Bool) (pc : P × C) :
    pc ∈ assigned_list I y ↔ pc.1 ∈ I.plants ∧ pc.2 ∈ I.custs ∧ y pc.1 pc.2 = true := by
  simp [assigned_list, List.mem_filter, mem_ij_pairs, and_assoc]

/-- A sum over the assigned pairs equals the full grid sum with each term
gated by the value of its serve variable. -/
theorem sum_over_assigned (I : Instance P C) (y : P → C → Bool) (f : P → C → ℚ) :
    ((assigned_list I y).map fun pc => f pc.1 pc.2).sum
      = (I.plants.map fun p =>
          (I.custs.map fun c => bval (y p c) * f p c).sum).sum := by
  unfold assigned_list ij_pairs
  induction I.plants with
  | nil => simp
  | cons p pt ih =>
    simp only [List.flatMap_cons, List.filter_append, List.map_append,
      List.sum_append, List.map_cons, List.sum_cons]
    rw [ih]
    congr 1
    induction I.custs with
    | nil => simp
    | cons c ct ihc =>
      by_cases h : y p c <;>
        simp [h, bval, List.filter_cons, ihc]

theorem row_sum_indicator [DecidableEq C] (yp : C → Bool) (cs : List C) (c0 : C) :
    (cs.map fun c => bval (yp c) * bval (decide (c = c0))).sum
      = bval (yp c0) * (cs.count c0 : ℚ) := by
  induction cs with
  | nil => simp
  | cons c ct ih =>
    rw [List.map_cons, List.sum_cons, ih, List.count_cons]
    by_cases h : c = c0
    · subst h
      have h1 : bval (decide (c = c)) = 1 := by simp [bval]
      have h2 : (if c == c then (1 : ℕ) else 0) = 1 := by simp
      rw [h1, h2]
      push_cast
      ring
    · have h1 : bval (decide (c = c0)) = 0 := by simp [bval, h]
      have h2 : (if c == c0 then (1 : ℕ) else 0) = 0 := by simp [h]
      rw [h1, h2]
      simp

/-- The number of lane-table rows carrying customer c0, as a rational:
the coverage sum for c0 times the multiplicity of c0 in the customer
list. -/
theorem assigned_rows_count [DecidableEq C] (I : Instance P C) (y : P → C → Bool) (c0 : C) :
    (((assigned_list I y).filter fun pc => decide (pc.2 = c0)).length : ℚ)
      = (I.plants.map fun p => bval (y p c0)).sum * (I.custs.count c0 : ℚ) := by
  rw [← sum_map_bval]
  rw [show (fun pc : P × C => bval (decide (pc.2 = c0)))
        = fun pc : P × C => (fun p c => bval (decide (c = c0))) pc.1 pc.2 from rfl]
  rw [sum_over_assigned I y fun p c => bval (decide (c = c0))]
  simp only [row_sum_indicator]
  rw [sum_map_mul_right_const]

/-- C1: after an optimal solve (a solution satisfying the model, whose
coverage constraints make the serve variables of each customer sum to
exactly 1), every customer appears in exactly one row of the lane table,
the table having one row per pair whose serve value passes the 0.5
threshold. -/
theorem cust_in_exactly_one_lane [DecidableEq C] (pr : Params) (I : Instance P C)
    (x : P → Bool) (y : P → C → Bool)
    (hfeas : Feasible pr I x y) (hnodup : I.custs.Nodup) :
    ∀ c ∈ I.custs, ((assigned_list I y).filter fun pc => decide (pc.2 = c)).length = 1 := by
  intro c hc
  have hcount := assigned_rows_count I y c
  rw [hfeas.1 c hc, List.count_eq_one_of_mem hnodup hc] at hcount
  have h1 : (((assigned_list I y).filter fun pc => decide (pc.2 = c)).length : ℚ) = 1 := by
    rw [hcount]; norm_num
  exact_mod_cast h1

theorem wit_feasible : Feasible wit_pr wit_I wit_x wit_y := by
  refine ⟨?_, ?_, ?_, ?_, ?_⟩ <;>
    norm_num [wit_I, wit_pr, wit_x, wit_y, bval, must_use_plants, unavailable_plants]

theorem cust_in_exactly_one_lane_witness :
    Feasible wit_pr wit_I wit_x wit_y ∧ wit_I.custs.Nodup ∧ 0 ∈ wit_I.custs ∧
      ((assigned_list wit_I wit_y).filter fun pc => decide (pc.2 = 0)).length = 1 :=
  ⟨wit_feasible, by decide, by decide,
    cust_in_exactly_one_lane wit_pr wit_I wit_x wit_y wit_feasible (by decide) 0 (by decide)⟩

/-- In any solution satisfying the `rel_x_y` constraints, a pair can only
be assigned when its plant is open. Shared kernel of several results. -/
theorem feasible_serve_open (pr : Params) (I : Instance P C)
    (x : P → Bool) (y : P → C → Bool) (hfeas : Feasible pr I x y) :
    ∀ p ∈ I.plants, ∀ c ∈ I.custs, y p c = true → x p = true := by
  intro p hp c hc hy
  have h := hfeas.2.2.1 p hp c hc
  rw [hy] at h
  by_contra hx
  rw [Bool.not_eq_true] at hx
  rw [hx] at h
  norm_num [bval] at h

/-- C4: the model posts the linking constraint making serve at most open
for every (plant, customer) pair in `ij_set` (the `rel_x_y` constraint
group of `Feasible`), so in every feasible solution no customer is served
by a plant that is not open. -/
theorem serve_only_from_open_plants (pr : Params) (I : Instance P C)
    (x : P → Bool) (y : P → C → Bool) (hfeas : Feasible pr I x y) :
    ∀ p ∈ I.plants, ∀ c ∈ I.custs, y p c = true → x p = true :=
  feasible_serve_open pr I x y hfeas

theorem serve_only_from_open_plants_witness :
    Feasible wit_pr wit_I wit_x wit_y ∧ 0 ∈ wit_I.plants ∧ 0 ∈ wit_I.custs ∧
      wit_y 0 0 = true ∧ wit_x 0 = true :=
  ⟨wit_feasible, by decide, by decide, by decide,
    serve_only_from_open_plants wit_pr wit_I wit_x wit_y wit_feasible
      0 (by decide) 0 (by decide) (by decide)⟩

/-- Every plant appearing in the lane table is an open plant of the
instance. -/
theorem lane_plants_open (pr : Params) (I : Instance P C)
    (x : P → Bool) (y : P → C → Bool) (hfeas : Feasible pr I x y) :
    ∀ p ∈ lane_plants I y, p ∈ I.plants ∧ x p = true := by
  intro p hp
  rw [lane_plants, List.mem_map] at hp
  obtain ⟨pc, hpc, hfst⟩ := hp
  rw [mem_assigned_list] at hpc
  obtain ⟨hp1, hc1, hy1⟩ := hpc
  subst hfst
  exact ⟨hp1, feasible_serve_open pr I x y hfeas pc.1 hp1 pc.2 hc1 hy1⟩

/-- C2 (amended): after an optimal solve, the set of distinct plants in the
lane table has size at most `max_plants` and contains no plant with
Can Use false; every Must Use plant is forced open, but need not appear in
the lane table itself. -/
theorem lane_plants_bounded_and_allowed [DecidableEq P] (pr : Params) (I : Instance P C)
    (x : P → Bool) (y : P → C → Bool)
    (hfeas : Feasible pr I x y) (hnodup : I.plants.Nodup) :
    (lane_plants I y).toFinset.card ≤ pr.max_plants ∧
    (∀ p ∈ lane_plants I y, I.canUse p = true) ∧
    (∀ p ∈ must_use_plants I, x p = true) := by
  refine ⟨?_, ?_, ?_⟩
  · have hsub : (lane_plants I y).toFinset ⊆ (I.plants.filter x).toFinset := by
      intro p hp
      rw [List.mem_toFinset] at hp ⊢
      obtain ⟨hp1, hx1⟩ := lane_plants_open pr I x y hfeas p hp
      rw [List.mem_filter]
      exact ⟨hp1, hx1⟩
    have hlen : ((I.plants.filter x).length : ℚ) ≤ (pr.max_plants : ℚ) := by
      rw [← sum_map_bval]
      exact hfeas.2.1
    have hlen2 : (I.plants.filter x).length ≤ pr.max_plants := by exact_mod_cast hlen
    calc (lane_plants I y).toFinset.card
        ≤ (I.plants.filter x).toFinset.card := Finset.card_le_card hsub
      _ = (I.plants.filter x).length := List.toFinset_card_of_nodup (hnodup.filter x)
      _ ≤ pr.max_plants := hlen2
  · intro p hp
    obtain ⟨hp1, hx1⟩ := lane_plants_open pr I x y hfeas p hp
    by_contra hcu
    rw [Bool.not_eq_true] at hcu
    have hmem : p ∈ unavailable_plants I := by
      rw [unavailable_plants, List.mem_filter]
      exact ⟨hp1, by rw [hcu]; rfl⟩
    have h0 := hfeas.2.2.2.2 p hmem
    rw [hx1] at h0
    norm_num [bval] at h0
  · intro p hp
    have h1 := hfeas.2.2.2.1 p hp
    by_contra hx
    rw [Bool.not_eq_true] at hx
    rw [hx] at h1
    norm_num [bval] at h1

theorem lane_plants_bounded_and_allowed_witness :
    Feasible wit_pr wit_I wit_x wit_y ∧ wit_I.plants.Nodup ∧
      (lane_plants wit_I wit_y).toFinset.card ≤ wit_pr.max_plants :=
  ⟨wit_feasible, by decide,
    (lane_plants_bounded_and_allowed wit_pr wit_I wit_x wit_y wit_feasible (by decide)).1⟩

/-- C2 is false as stated: in this instance the exhibited solution is
feasible and optimal, plant 0 is flagged Must Use, yet plant 0 does not
appear among the distinct plants of the lane table — the lane table only
contains plants that actually serve someone. -/
theorem must_use_plant_missing_from_lanes :
    cex2_I.mustUse 0 = true ∧ 0 ∈ cex2_I.plants ∧
    Feasible cex2_pr cex2_I cex2_x cex2_y ∧
    (∀ x y, Feasible cex2_pr cex2_I x y →
      objective cex2_pr cex2_I cex2_y ≤ objective cex2_pr cex2_I y) ∧
    0 ∉ lane_plants cex2_I cex2_y := by
  refine ⟨by decide, by decide, ?_, ?_, by decide⟩
  · refine ⟨?_, ?_, ?_, ?_, ?_⟩ <;>
      norm_num [cex2_I, cex2_pr, cex2_x, cex2_y, bval, must_use_plants, unavailable_plants]
  · intro x y hf
    have hcov := hf.1 0 (by norm_num [cex2_I])
    simp only [cex2_I, List.map_cons, List.map_nil, List.sum_cons, List.sum_nil] at hcov
    cases hy0 : y 0 0 <;> cases hy1 : y 1 0 <;>
      simp only [hy0, hy1, bval, if_true, if_false, Bool.false_eq_true] at hcov <;>
      norm_num at hcov <;>
      norm_num [objective, total_weighted_dist, cex2_I, cex2_y, bval, hy0, hy1]

/-- Under the coverage constraints, the lane-table demand total equals the
demand total over the customer list. -/
theorem total_dmd_eq_sum_demand (pr : Params) (I : Instance P C)
    (x : P → Bool) (y : P → C → Bool) (hfeas : Feasible pr I x y) :
    total_dmd I y = (I.custs.map fun c => I.demand c).sum := by
  unfold total_dmd adf
  rw [List.map_map]
  rw [show ((fun r : LaneRow P C => r.demand) ∘ fun pc : P × C =>
        ({ plant := pc.1, customer := pc.2, demand := I.demand pc.2,
           distance := I.dist pc.1 pc.2 } : LaneRow P C))
      = fun pc : P × C => (fun _ c => I.demand c) pc.1 pc.2 from rfl]
  rw [sum_over_assigned I y fun _ c => I.demand c]
  rw [list_sum_comm]
  have h : ∀ c ∈ I.custs,
      (I.plants.map fun p => bval (y p c) * I.demand c).sum = I.demand c := by
    intro c hc
    rw [sum_map_mul_right_const, hfeas.1 c hc, one_mul]
  rw [List.map_congr_left h]

/-- C8: with the demand-weighted-distance objective, the reported weighted
average distance is the objective value divided by total demand, and the
total demand computed over the lane rows equals the demand sum over all
customers (coverage law). -/
theorem weighted_avg_dist_eq_objective_div_total_demand (pr : Params) (I : Instance P C)
    (x : P → Bool) (y : P → C → Bool) (hfeas : Feasible pr I x y) :
    total_dmd I y = (I.custs.map fun c => I.demand c).sum ∧
    weighted_avg_dist I y = objective pr I y / (I.custs.map fun c => I.demand c).sum := by
  have h := total_dmd_eq_sum_demand pr I x y hfeas
  exact ⟨h, by rw [weighted_avg_dist, h]; rfl⟩

theorem weighted_avg_dist_eq_objective_div_total_demand_witness :
    Feasible wit_pr wit_I wit_x wit_y ∧
    weighted_avg_dist wit_I wit_y
      = objective wit_pr wit_I wit_y / (wit_I.custs.map fun c => wit_I.demand c).sum :=
  ⟨wit_feasible,
    (weighted_avg_dist_eq_objective_div_total_demand wit_pr wit_I wit_x wit_y wit_feasible).2⟩

/-- Every lane row carries the demand of its customer, hence a
non-negative value when demands are non-negative. -/
theorem adf_demand_nonneg (I : Instance P C) (y : P → C → Bool)
    (hdem : ∀ c ∈ I.custs, 0 ≤ I.demand c) :
    ∀ r ∈ adf I y, 0 ≤ r.demand := by
  intro r hr
  rw [adf, List.mem_map] at hr
  obtain ⟨pc, hpc, hre⟩ := hr
  rw [mem_assigned_list] at hpc
  subst hre
  exact hdem pc.2 hpc.2.1

/-- Sum of a non-negative column over a filtered list grows when the filter
is weakened. -/
theorem sum_filter_mono_pred {α : Type} (l : List α) (f : α → ℚ) (p q : α → Bool)
    (himp : ∀ a ∈ l, p a = true → q a = true) (hnn : ∀ a ∈ l, 0 ≤ f a) :
    ((l.filter p).map f).sum ≤ ((l.filter q).map f).sum := by
  induction l with
  | nil => simp
  | cons a t ih =>
    have ih2 := ih (fun b hb hpb => himp b (List.mem_cons_of_mem a hb) hpb)
      (fun b hb => hnn b (List.mem_cons_of_mem a hb))
    by_cases hp : p a
    · have hq := himp a (List.mem_cons_self a t) hp
      simp [List.filter_cons, hp, hq]
      linarith
    · by_cases hq : q a
      · simp [List.filter_cons, hp, hq]
        have hna := hnn a (List.mem_cons_self a t)
        linarith
      · simp [List.filter_cons, hp, hq]
        exact ih2

/-- C9: the per-threshold coverage fractions are monotonically
non-decreasing in the threshold and each lies in the unit interval, for
non-negative demands and positive lane-table demand total. -/
theorem coverage_fractions_monotone_in_unit_interval (I : Instance P C) (y : P → C → Bool)
    (hdem : ∀ c ∈ I.custs, 0 ≤ I.demand c) (hpos : 0 < total_dmd I y) :
    (∀ t1 t2 : ℚ, t1 ≤ t2 → pct_dmd_within I y t1 ≤ pct_dmd_within I y t2) ∧
    (∀ t : ℚ, 0 ≤ pct_dmd_within I y t ∧ pct_dmd_within I y t ≤ 1) := by
  have hnn := adf_demand_nonneg I y hdem
  constructor
  · intro t1 t2 ht
    unfold pct_dmd_within
    apply (div_le_div_iff_of_pos_right hpos).mpr
    apply sum_filter_mono_pred
    · intro r hr h1
      rw [decide_eq_true_eq] at h1 ⊢
      exact le_trans h1 ht
    · exact hnn
  · intro t
    constructor
    · apply div_nonneg
      · apply List.sum_nonneg
        intro q hq
        rw [List.mem_map] at hq
        obtain ⟨r, hr, hrq⟩ := hq
        subst hrq
        exact hnn r (List.mem_of_mem_filter hr)
      · exact le_of_lt hpos
    · rw [pct_dmd_within, div_le_one hpos]
      unfold total_dmd
      have h := sum_filter_mono_pred (adf I y) (fun r => r.demand)
        (fun r => decide (r.distance ≤ t)) (fun _ => true) (fun a _ _ => rfl) hnn
      rw [List.filter_true] at h
      exact h

theorem coverage_fractions_monotone_in_unit_interval_witness :
    (∀ c ∈ wit_I.custs, 0 ≤ wit_I.demand c) ∧ 0 < total_dmd wit_I wit_y ∧
      pct_dmd_within wit_I wit_y 400 ≤ pct_dmd_within wit_I wit_y 800 :=
  ⟨by norm_num [wit_I], by norm_num [total_dmd, adf, assigned_list, ij_pairs, wit_I, wit_y],
    (coverage_fractions_monotone_in_unit_interval wit_I wit_y
      (by norm_num [wit_I])
      (by norm_num [total_dmd, adf, assigned_list, ij_pairs, wit_I, wit_y])).1
      400 800 (by norm_num)⟩

/-- C5 is false as stated: no parameter setting of the program makes the
minimized objective equal the service-cost objective — the Case 2
objective exists only as commented-out code. Whatever the configuration,
the two expressions disagree on one of the two concrete instances above
(they would force twice the unit service cost to be 3 and the unit
service cost to be 1 simultaneously). -/
theorem cost_objective_not_selectable :
    ¬ ∃ pr : Params, ∀ (I : Instance ℕ ℕ) (y : ℕ → ℕ → Bool),
        objective pr I y = total_cost pr I y := by
  rintro ⟨pr, h⟩
  have h1 := h inst5a fun _ _ => true
  have h2 := h inst5b fun _ _ => true
  norm_num [objective, total_weighted_dist, total_cost, inst5a, inst5b, bval,
    service_cost] at h1 h2
  rw [← h2] at h1
  norm_num at h1

/-- C5 (amended): the objective minimized by the program is always the
demand-weighted distance; the service-cost objective is not reachable by
any configuration value, and for every configuration there is an input on
which the two objectives differ. -/
theorem objective_always_weighted_distance (pr : Params) :
    (∀ (I : Instance ℕ ℕ) (y : ℕ → ℕ → Bool), objective pr I y = total_weighted_dist I y) ∧
    (∃ (I : Instance ℕ ℕ) (y : ℕ → ℕ → Bool), objective pr I y ≠ total_cost pr I y) := by
  refine ⟨fun I y => rfl, ?_⟩
  by_cases hm : max pr.cost_per_mile pr.min_cost = 1
  · refine ⟨inst5a, fun _ _ => true, ?_⟩
    norm_num [objective, total_weighted_dist, total_cost, inst5a, bval, service_cost, hm]
  · refine ⟨inst5b, fun _ _ => true, fun he => hm ?_⟩
    norm_num [objective, total_weighted_dist, total_cost, inst5b, bval, service_cost] at he
    exact he.symm

/-- C6 is false as stated: on an input whose plant is both must-use and
cannot-use, no DataError is raised before the solve — the run
builds the model, submits it, and its outcome is decided by the answer of
the solver (different solver statuses give different outcomes, so
execution reached the status dispatch after the optimize call). -/
theorem contradictory_flags_reach_solver :
    (0 ∈ cex6_I.plants ∧ cex6_I.mustUse 0 = true ∧ cex6_I.canUse 0 = false) ∧
    run_network_optimization cex6_pr cex6_I ⟨INFEASIBLE, fun _ => false, fun _ _ => false⟩
      = RunOutcome.exited 1 infeasible_or_unbounded_msg ∧
    run_network_optimization cex6_pr cex6_I ⟨OPTIMAL, fun _ => true, fun _ _ => true⟩
      ≠ run_network_optimization cex6_pr cex6_I ⟨INFEASIBLE, fun _ => false, fun _ _ => false⟩ := by
  refine ⟨by decide, rfl, ?_⟩
  intro h
  simp [run_network_optimization, OPTIMAL, INFEASIBLE, INF_OR_UNBD, UNBOUNDED] at h

/-- C6 (amended): a plant flagged both must-use and cannot-use is
not rejected by any pre-solve validation; instead the model carries both
an open-equals-1 and an open-equals-0 constraint for it, so it has no
feasible solution and the run ends at the solve stage through the generic
infeasible exit. -/
theorem contradictory_flags_make_model_infeasible (pr : Params) (I : Instance P C)
    (h : ∃ p ∈ I.plants, I.mustUse p = true ∧ I.canUse p = false) :
    ∀ x y, ¬ Feasible pr I x y := by
  rintro x y hf
  obtain ⟨p, hp, hmu, hcu⟩ := h
  have h1 := hf.2.2.2.1 p (by rw [must_use_plants, List.mem_filter]; exact ⟨hp, hmu⟩)
  have h0 := hf.2.2.2.2 p
    (by rw [unavailable_plants, List.mem_filter]; exact ⟨hp, by rw [hcu]; rfl⟩)
  rw [h1] at h0
  norm_num at h0

theorem contradictory_flags_make_model_infeasible_witness :
    (∃ p ∈ cex6_I.plants, cex6_I.mustUse p = true ∧ cex6_I.canUse p = false) ∧
    ¬ Feasible cex6_pr cex6_I (fun _ => true) (fun _ _ => true) :=
  ⟨by decide,
    contradictory_flags_make_model_infeasible cex6_pr cex6_I (by decide)
      (fun _ => true) (fun _ _ => true)⟩

/-- C7 is false as stated: the terminal behavior of the run for the
infeasible status and for the unbounded status is one and the same outcome
(exit code 1 with one shared message), although the raw statuses differ —
so the surfaced failure is not a distinct, named failure carrying the raw
solver status. -/
theorem infeasible_and_unbounded_same_outcome :
    INFEASIBLE ≠ UNBOUNDED ∧
    run_network_optimization wit_pr wit_I ⟨INFEASIBLE, wit_x, wit_y⟩
      = run_network_optimization wit_pr wit_I ⟨UNBOUNDED, wit_x, wit_y⟩ :=
  ⟨by decide, rfl⟩

/-- C7 (amended): for every solver status other than optimal the run
terminates with a plain exit of code 1 and produces no lane table or KPI
report; the failure is not a named error object, and the three
infeasible or unbounded statuses share a single message without the raw
status. -/
theorem non_optimal_exits_without_report (pr : Params) (I : Instance P C)
    (r : SolveResult P C) (h : r.status ≠ OPTIMAL) :
    ∃ m : String, run_network_optimization pr I r = RunOutcome.exited 1 m := by
  unfold run_network_optimization
  by_cases h1 : r.status = INF_OR_UNBD ∨ r.status = INFEASIBLE ∨ r.status = UNBOUNDED
  · exact ⟨infeasible_or_unbounded_msg, if_pos h1⟩
  · rw [if_neg h1, if_neg h]
    exact ⟨_, rfl⟩

theorem non_optimal_exits_without_report_witness :
    (INFEASIBLE : ℕ) ≠ OPTIMAL ∧
    ∃ m : String, run_network_optimization wit_pr wit_I ⟨INFEASIBLE, wit_x, wit_y⟩
      = RunOutcome.exited 1 m :=
  ⟨by decide,
    non_optimal_exits_without_report wit_pr wit_I ⟨INFEASIBLE, wit_x, wit_y⟩ (by decide)⟩

/-- C3: the distance matrix is total (every plant-customer pair has an
entry, none skipped), every entry's cost equals the maximum of the
distance times the rate and the minimum cost, and for a non-negative
rate that transform is monotonically non-decreasing in the distance. -/
theorem distance_matrix_total_and_cost_monotone (pr : Params)
    (plants : List (PlantRec P)) (custs : List (CustRec C)) :
    (∀ p ∈ plants, ∀ c ∈ custs, ∃ r ∈ get_distance_with_cost pr plants custs,
      r.plant = p.id ∧ r.customer = c.id ∧
      r.distance = calculate_distance_haversine p.lat p.lon c.lat c.lon 1 "miles") ∧
    (∀ r ∈ get_distance_with_cost pr plants custs,
      r.cost = max ((pr.cost_per_mile : ℝ) * r.distance) (pr.min_cost : ℝ)) ∧
    (0 ≤ pr.cost_per_mile → ∀ d1 d2 : ℝ, d1 ≤ d2 →
      service_cost (pr.cost_per_mile : ℝ) (pr.min_cost : ℝ) d1
        ≤ service_cost (pr.cost_per_mile : ℝ) (pr.min_cost : ℝ) d2) := by
  refine ⟨?_, ?_, ?_⟩
  · intro p hp c hc
    refine ⟨(⟨p.id, c.id, calculate_distance_haversine p.lat p.lon c.lat c.lon 1 "miles",
        service_cost (pr.cost_per_mile : ℝ) (pr.min_cost : ℝ)
          (calculate_distance_haversine p.lat p.lon c.lat c.lon 1 "miles")⟩ : DistRow P C),
      ?_, rfl, rfl, rfl⟩
    rw [get_distance_with_cost, List.mem_flatMap]
    exact ⟨p, hp, List.mem_map.mpr ⟨c, hc, rfl⟩⟩
  · intro r hr
    rw [get_distance_with_cost, List.mem_flatMap] at hr
    obtain ⟨p, hp, hr2⟩ := hr
    rw [List.mem_map] at hr2
    obtain ⟨c, hc, hre⟩ := hr2
    subst hre
    rfl
  · intro hrate d1 d2 hd
    have hr : (0 : ℝ) ≤ (pr.cost_per_mile : ℝ) := by exact_mod_cast hrate
    exact max_le_max (mul_le_mul_of_nonneg_left hd hr) le_rfl

theorem distance_matrix_total_and_cost_monotone_witness :
    (∃ r ∈ get_distance_with_cost wit_pr [wit_plant] [wit_cust],
      r.plant = wit_plant.id ∧ r.customer = wit_cust.id ∧
      r.distance = calculate_distance_haversine wit_plant.lat wit_plant.lon
        wit_cust.lat wit_cust.lon 1 "miles") ∧
    (0 : ℚ) ≤ wit_pr.cost_per_mile ∧ (0 : ℝ) ≤ 1 ∧
    service_cost (wit_pr.cost_per_mile : ℝ) (wit_pr.min_cost : ℝ) 0
      ≤ service_cost (wit_pr.cost_per_mile : ℝ) (wit_pr.min_cost : ℝ) 1 :=
  ⟨(distance_matrix_total_and_cost_monotone wit_pr [wit_plant] [wit_cust]).1
      wit_plant (List.mem_singleton.mpr rfl) wit_cust (List.mem_singleton.mpr rfl),
    by decide, zero_le_one,
    (distance_matrix_total_and_cost_monotone wit_pr [wit_plant] [wit_cust]).2.2
      (by decide) 0 1 zero_le_one⟩

theorem atan2_one_zero : atan2 1 0 = Real.pi / 2 := by
  unfold atan2
  rw [if_neg (lt_irrefl 0), if_pos rfl, if_pos one_pos]

theorem haversine_a_antipodal : haversine_a 0 0 0 180 = 1 := by
  unfold haversine_a radians
  rw [show ((0 : ℝ) * Real.pi / 180 - 0 * Real.pi / 180) / 2 = 0 by ring]
  rw [show ((180 : ℝ) * Real.pi / 180 - 0 * Real.pi / 180) / 2 = Real.pi / 2 by ring]
  rw [show (0 : ℝ) * Real.pi / 180 = 0 by ring]
  rw [Real.sin_zero, Real.cos_zero, Real.sin_pi_div_two]
  norm_num

/-- At antipodal equator points the haversine distance is the radius times
the half-turn angle, whatever the units string. -/
theorem haversine_antipodal (u : String) :
    calculate_distance_haversine 0 0 0 180 1 u = earthRadius u * Real.pi := by
  unfold calculate_distance_haversine
  rw [haversine_a_antipodal]
  rw [show (1 : ℝ) - 1 = 0 by ring, Real.sqrt_one, Real.sqrt_zero, atan2_one_zero]
  ring

theorem earthRadius_KM : earthRadius ("KM") = 6371.00 := by
  unfold earthRadius
  rw [show strLower ("KM") = "km" from by decide]
  rw [if_neg (by decide), if_pos (by decide)]

theorem earthRadius_miles : earthRadius ("miles") = 3958.756 := by
  unfold earthRadius
  rw [if_pos (by decide)]

/-- C10 is false as stated: the string KM is not among the six recognized
spellings listed by the claim, yet the function does not fall back to the
miles radius — recognition happens after lowercasing the units argument,
so KM picks the kilometer radius and returns a different distance than
the miles spelling does. -/
theorem uppercase_km_not_miles_fallback :
    "KM" ∉ (["miles", "mile", "m", "kilometers", "kilometer", "km"] : List String) ∧
    calculate_distance_haversine 0 0 0 180 1 "KM"
      ≠ calculate_distance_haversine 0 0 0 180 1 "miles" := by
  refine ⟨by decide, ?_⟩
  rw [haversine_antipodal ("KM"), haversine_antipodal ("miles"),
    earthRadius_KM, earthRadius_miles]
  intro h
  have h2 := mul_right_cancel₀ Real.pi_ne_zero h
  norm_num at h2

/-- C10 (amended): for every units argument whose lowercased form is not
among the recognized spellings, the function never fails — it is total —
and silently falls back to the miles Earth radius, returning the same
distance as if the miles spelling had been passed. (Recognition is
case-insensitive, so e.g. KM is treated as kilometers, not as
unrecognized.) -/
theorem unrecognized_units_fall_back_to_miles (units : String)
    (h : strLower units
      ∉ (["miles", "mile", "m", "kilometers", "kilometer", "km"] : List String)) :
    ∀ lat1 lon1 lat2 lon2 rf : ℝ,
      calculate_distance_haversine lat1 lon1 lat2 lon2 rf units
        = calculate_distance_haversine lat1 lon1 lat2 lon2 rf "miles" := by
  intro lat1 lon1 lat2 lon2 rf
  have hne : strLower units ≠ "miles" ∧ strLower units ≠ "mile" ∧ strLower units ≠ "m" ∧
      strLower units ≠ "kilometers" ∧ strLower units ≠ "kilometer" ∧
      strLower units ≠ "km" := by
    simp only [List.mem_cons, List.not_mem_nil, or_false, not_or] at h
    exact h
  have hr : earthRadius units = earthRadius "miles" := by
    rw [earthRadius_miles]
    unfold earthRadius
    rw [if_neg (by push_neg; exact ⟨hne.1, hne.2.1, hne.2.2.1⟩)]
    rw [if_neg (by push_neg; exact ⟨hne.2.2.2.1, hne.2.2.2.2.1, hne.2.2.2.2.2⟩)]
  unfold calculate_distance_haversine
  rw [hr]

theorem unrecognized_units_fall_back_to_miles_witness :
    strLower ("furlong")
      ∉ (["miles", "mile", "m", "kilometers", "kilometer", "km"] : List String) ∧
    calculate_distance_haversine 1 2 3 4 1 "furlong"
      = calculate_distance_haversine 1 2 3 4 1 "miles" :=
  ⟨by decide, unrecognized_units_fall_back_to_miles ("furlong") (by decide) 1 2 3 4 1⟩

end NetOpt
